import Mathlib

/-!
Shallow embedding of the `improcessor` pipeline engine
(`src/improcessor/basic.py` and `src/improcessor/mask.py`).

Python values that can appear in a configuration list (operation tokens
and argument tuples) are modelled by `PyObj`; Python exceptions by
`PyErr`; the image values threaded through `basic.apply` by `ImVal`.
Numeric buffers are modelled with rational entries, since the numpy
operations involved (`np.clip`, subtraction, division, `np.min`/`np.max`)
are exact elementwise/reduction operations on the stored numbers.
-/

/-- Python exceptions that the modelled code can raise. -/
inductive PyErr where
  | typeError
  | indexError
  | nameError
  | valueError
  | attributeError
  | assertionError
  | notImplementedError
  | unboundLocalError
deriving DecidableEq

/-- A Python object as it can occur in a configuration argument list:
a string token, a number, a tuple (also standing for Python lists, whose
truthiness and unpacking behaviour coincide), the value `None`, or a
function object (modelled by its name; only its non-string-ness matters
to the configuration code). -/
inductive PyObj where
  | pyNone
  | num (q : ℚ)
  | str (s : String)
  | tuple (elems : List PyObj)
  | fnObj (name : String)

mutual

/-- Decidable equality for `PyObj` (the nested `tuple` constructor
prevents automatic derivation). -/
def pyObjDecEq : (a b : PyObj) → Decidable (a = b)
  | .pyNone, .pyNone => isTrue rfl
  | .num a, .num b =>
    if h : a = b then isTrue (by rw [h]) else
      isFalse (by intro hc; injection hc with h2; exact h h2)
  | .str a, .str b =>
    if h : a = b then isTrue (by rw [h]) else
      isFalse (by intro hc; injection hc with h2; exact h h2)
  | .fnObj a, .fnObj b =>
    if h : a = b then isTrue (by rw [h]) else
      isFalse (by intro hc; injection hc with h2; exact h h2)
  | .tuple a, .tuple b =>
    match pyObjListDecEq a b with
    | isTrue h => isTrue (by rw [h])
    | isFalse h => isFalse (by intro hc; injection hc with h2; exact h h2)
  | .pyNone, .num _ => isFalse (fun h => PyObj.noConfusion h)
  | .pyNone, .str _ => isFalse (fun h => PyObj.noConfusion h)
  | .pyNone, .tuple _ => isFalse (fun h => PyObj.noConfusion h)
  | .pyNone, .fnObj _ => isFalse (fun h => PyObj.noConfusion h)
  | .num _, .pyNone => isFalse (fun h => PyObj.noConfusion h)
  | .num _, .str _ => isFalse (fun h => PyObj.noConfusion h)
  | .num _, .tuple _ => isFalse (fun h => PyObj.noConfusion h)
  | .num _, .fnObj _ => isFalse (fun h => PyObj.noConfusion h)
  | .str _, .pyNone => isFalse (fun h => PyObj.noConfusion h)
  | .str _, .num _ => isFalse (fun h => PyObj.noConfusion h)
  | .str _, .tuple _ => isFalse (fun h => PyObj.noConfusion h)
  | .str _, .fnObj _ => isFalse (fun h => PyObj.noConfusion h)
  | .tuple _, .pyNone => isFalse (fun h => PyObj.noConfusion h)
  | .tuple _, .num _ => isFalse (fun h => PyObj.noConfusion h)
  | .tuple _, .str _ => isFalse (fun h => PyObj.noConfusion h)
  | .tuple _, .fnObj _ => isFalse (fun h => PyObj.noConfusion h)
  | .fnObj _, .pyNone => isFalse (fun h => PyObj.noConfusion h)
  | .fnObj _, .num _ => isFalse (fun h => PyObj.noConfusion h)
  | .fnObj _, .str _ => isFalse (fun h => PyObj.noConfusion h)
  | .fnObj _, .tuple _ => isFalse (fun h => PyObj.noConfusion h)

/-- Decidable equality for lists of `PyObj`. -/
def pyObjListDecEq : (a b : List PyObj) → Decidable (a = b)
  | [], [] => isTrue rfl
  | [], _ :: _ => isFalse (fun h => List.noConfusion h)
  | _ :: _, [] => isFalse (fun h => List.noConfusion h)
  | x :: xs, y :: ys =>
    match pyObjDecEq x y, pyObjListDecEq xs ys with
    | isTrue h1, isTrue h2 => isTrue (by rw [h1, h2])
    | isFalse h1, _ => isFalse (by intro hc; injection hc with ha hb; exact h1 ha)
    | _, isFalse h2 => isFalse (by intro hc; injection hc with ha hb; exact h2 hb)

end

instance : DecidableEq PyObj := pyObjDecEq

/-- Python truthiness of a `PyObj` (what `not x` negates). -/
def pyTruthy : PyObj → Bool
  | .pyNone => false
  | .num q => decide (q ≠ 0)
  | .str s => decide (s ≠ "")
  | .tuple l => !l.isEmpty
  | .fnObj _ => true

/-- Python iterable unpacking `*x`: tuples/lists yield their elements,
strings yield their characters, everything else raises `TypeError`. -/
def unpackObj : PyObj → Except PyErr (List PyObj)
  | .tuple l => .ok l
  | .str s => .ok (s.toList.map (fun c => PyObj.str c.toString))
  | _ => .error .typeError

/-- Whether a `PyObj` is a Python string. -/
def isStr : PyObj → Bool
  | .str _ => true
  | _ => false

/-- The names of the module-level functions of `improcessor.basic`, as
computed by `inspect.getmembers(sys.modules[__name__], predicate=is_local)`
(sorted alphabetically, which is how `getmembers` returns them). -/
def function_handle_list : List String :=
  ["builtin_clip", "builtin_normalize", "builtin_scale", "builtin_scaleabout"]

/-- A finite stand-in for `dir(cv2)`: a selection of genuine OpenCV
top-level names.  The configuration code only tests membership of a
token in `dir(cv2)`, so any faithful finite fragment suffices for the
claims, none of which hinge on a token that is a cv2 name being absent
from this list. -/
def cv2dir : List String :=
  ["GaussianBlur", "cvtColor", "dilate", "erode", "medianBlur", "resize", "threshold"]

/-- One step of the configuration loop of `basic._setProcess`, consuming
the token/argument pairs of `self.args` two at a time (`ind = ind+2`).
Returns the methods appended, the warnings printed (the offending tokens,
in order), and the exception that aborted the loop, if any.

The branch structure mirrors the source exactly:
1. a token equal to one of the names in `function_handle_list` is stored
   with its argument object (`self.args[ind+1]`, raising `IndexError`
   when the list ends before it);
2. the strings `clip`/`scale`/`scaleabout` are stored as
   `builtin_<name>` with their argument object;
3. the string `normalize` is stored as `builtin_normalize` with an empty
   argument list, without touching `self.args[ind+1]`;
4. a string in `dir(cv2)` is stored as `cv2.<name>` with its argument
   object;
5. any other string is stored as-is with its argument object;
6. any non-string token prints one warning when `ignore_undef` is false
   (silently skipped when true); the pair is not stored. -/
def procPairs : List PyObj → Bool → (List (String × PyObj) × List PyObj × Option PyErr)
  | [], _ => ([], [], Option.none)
  | [t], ig =>
    match t with
    | .str s =>
      if s ∈ function_handle_list then ([], [], some .indexError)
      else if s = "clip" ∨ s = "scale" ∨ s = "scaleabout" then ([], [], some .indexError)
      else if s = "normalize" then ([("builtin_normalize", .tuple [])], [], Option.none)
      else ([], [], some .indexError)
    | _ => if ig then ([], [], Option.none) else ([], [t], Option.none)
  | t :: a :: rest, ig =>
    let r := procPairs rest ig
    match t with
    | .str s =>
      if s ∈ function_handle_list then ((s, a) :: r.1, r.2.1, r.2.2)
      else if s = "clip" ∨ s = "scale" ∨ s = "scaleabout" then
        (("builtin_" ++ s, a) :: r.1, r.2.1, r.2.2)
      else if s = "normalize" then (("builtin_normalize", .tuple []) :: r.1, r.2.1, r.2.2)
      else if s ∈ cv2dir then (("cv2." ++ s, a) :: r.1, r.2.1, r.2.2)
      else ((s, a) :: r.1, r.2.1, r.2.2)
    | _ => if ig then (r.1, r.2.1, r.2.2) else (r.1, t :: r.2.1, r.2.2)

/-- The state of a `basic` improcessor object: the four instance fields
set by `__init__` and mutated by `set`/`_setProcess`. -/
structure BasicState where
  args : List PyObj
  numfuncs : Nat
  methods : List (String × PyObj)
  ignore_undef : Bool
deriving DecidableEq

/-- `basic._setProcess`: appends the methods recognised in `self.args`
to `self.methods`, incrementing `self.numfuncs` once per append (callers
pre-clear both fields).  Returns the updated state together with the
warnings printed and the exception propagated, if any; on an exception
the state holds exactly the appends made before the abort, as in the
source. -/
def setProcess (b : BasicState) : BasicState × List PyObj × Option PyErr :=
  let r := procPairs b.args b.ignore_undef
  ({ b with methods := b.methods ++ r.1, numfuncs := b.numfuncs + r.1.length }, r.2.1, r.2.2)

/-- `basic.__init__(*args)`: stores the argument list, zeroes
`numfuncs`/`methods`, sets `ignore_undef` to `False` and runs
`_setProcess`. -/
def basicInit (a : List PyObj) : BasicState × List PyObj × Option PyErr :=
  setProcess { args := a, numfuncs := 0, methods := [], ignore_undef := false }

/-- `basic.set('ignore', v)`: stores the flag.  (The source stores the
raw object and only ever truthiness-tests it, so a boolean field is
observationally faithful.) -/
def set_ignore (b : BasicState) (v : Bool) : BasicState :=
  { b with ignore_undef := v }

/-- `basic.set('processing', args)`: stores the new token list, zeroes
`numfuncs`/`methods`, resets `ignore_undef` to `False` and re-runs
`_setProcess`. -/
def set_processing (b : BasicState) (a : List PyObj) : BasicState × List PyObj × Option PyErr :=
  setProcess { b with args := a, numfuncs := 0, methods := [], ignore_undef := false }

/-- The value returned by `basic.get`. -/
inductive GetVal where
  | flag (b : Bool)
  | meths (m : List (String × PyObj))
deriving DecidableEq

/-- `basic.get(fname)`: returns the flag or the methods list; any other
key leaves the local `fval` unbound, so the final `return fval` raises
`UnboundLocalError`.  The state is returned alongside to make explicit
that `get` performs no mutation. -/
def getS (b : BasicState) (fname : String) : BasicState × Except PyErr GetVal :=
  (b, if fname = "ignore" then .ok (.flag b.ignore_undef)
      else if fname = "processing" then .ok (.meths b.methods)
      else .error .unboundLocalError)

/-- An image value threaded through `basic.apply`: Python `None`, the
0-dimensional object array `np.copy(None)` produces, or a numeric
buffer (flattened; all modelled buffer operations are elementwise). -/
inductive ImVal where
  | pyNone
  | noneArr
  | buf (b : List ℚ)
deriving DecidableEq

/-- `np.copy` on the modelled values: copying `None` yields the
0-dimensional object array wrapping `None`; arrays and buffers copy to
equal values (value semantics are the identity in a pure model). -/
def npCopy : ImVal → ImVal
  | .pyNone => .noneArr
  | v => v

/-- The semantics of one resolvable operation: current value and
unpacked extra arguments in, new value or exception out. -/
def OpFun : Type := ImVal → List PyObj → Except PyErr ImVal

/-- One iteration of the loop body of `basic.apply`: resolve the stored
name with `eval` (a failed lookup raises `NameError`), then call the
operation on the current value alone when the stored argument object is
falsy, else on the current value followed by the unpacked arguments. -/
def stepFn (env : String → Option OpFun) (cur : ImVal) (m : String × PyObj) :
    Except PyErr ImVal :=
  match env m.1 with
  | Option.none => .error .nameError
  | some op =>
    if pyTruthy m.2 then
      match unpackObj m.2 with
      | .error e => .error e
      | .ok as => op cur as
    else op cur []

/-- The indexed loop `for ii in range(numfuncs)` of `basic.apply`:
`i` is the next index, the `Nat` fuel counts the remaining iterations,
and indexing `methods[ii]` out of range raises `IndexError`. -/
def applyLoop (env : String → Option OpFun) (ms : List (String × PyObj)) :
    Nat → Nat → ImVal → Except PyErr ImVal
  | _, 0, cur => .ok cur
  | i, k + 1, cur =>
    match ms.get? i with
    | Option.none => .error .indexError
    | some m =>
      match stepFn env cur m with
      | .error e => .error e
      | .ok c => applyLoop env ms (i + 1) k c

/-- `basic.apply(image)`: when `numfuncs == 0` the result is `None`
(this also covers `image is None` with an empty pipeline); when
`numfuncs > 0` the loop runs on `np.copy(image)` regardless of whether
`image` is `None`, because the source's first branch only assigns
`imout = None` and does not return. -/
def applyBasic (env : String → Option OpFun) (b : BasicState) (image : ImVal) :
    Except PyErr ImVal :=
  if b.numfuncs = 0 then .ok .pyNone
  else applyLoop env b.methods 0 b.numfuncs (npCopy image)

/-- `basic.apply` with the state threaded through, making explicit that
`apply` assigns to no instance field. -/
def applyS (env : String → Option OpFun) (b : BasicState) (image : ImVal) :
    BasicState × Except PyErr ImVal :=
  (b, applyBasic env b image)

/-- `basic.post(image)`: the body is `raise NotImplementedError`. -/
def post (_image : ImVal) : Except PyErr ImVal :=
  .error .notImplementedError

/-- Decidable equality for `Except` results (used to evaluate the
modelled functions at concrete inputs). -/
def exceptDecEq {ε α : Type} [DecidableEq ε] [DecidableEq α] :
    (a b : Except ε α) → Decidable (a = b)
  | .error e, .error f =>
    if h : e = f then isTrue (by rw [h]) else
      isFalse (by intro hc; injection hc with h2; exact h h2)
  | .ok x, .ok y =>
    if h : x = y then isTrue (by rw [h]) else
      isFalse (by intro hc; injection hc with h2; exact h h2)
  | .error _, .ok _ => isFalse (fun h => Except.noConfusion h)
  | .ok _, .error _ => isFalse (fun h => Except.noConfusion h)

instance {ε α : Type} [DecidableEq ε] [DecidableEq α] : DecidableEq (Except ε α) :=
  exceptDecEq

/-- `np.min` of a one-dimensional buffer (raises on an empty buffer in
numpy; the `[]` value here is junk, only reached outside the claims'
hypotheses). -/
def npMin : List ℚ → ℚ
  | [] => 0
  | h :: t => t.foldl min h

/-- `np.max` of a one-dimensional buffer. -/
def npMax : List ℚ → ℚ
  | [] => 0
  | h :: t => t.foldl max h

/-- `builtin_clip(img, limits)`: `np.clip(img, limits[0], limits[1])`,
elementwise `min(max(v, lo), hi)` (numpy's clip with `lo > hi` yields
`hi`, exactly as this formula does).  `np.array(img)` on a numeric
buffer is the identity in a pure value model. -/
def builtin_clip (img : List ℚ) (limits : ℚ × ℚ) : List ℚ :=
  img.map (fun v => min (max v limits.1) limits.2)

/-- `builtin_clip` as invoked by the `apply` loop through `eval`:
the single extra argument is the `limits` tuple, whose first two
entries must be numbers; a `None`-wrapping array raises `TypeError`
inside `np.clip` (comparison of `None` with a number), as does a wrong
argument arity or shape. -/
def clipOp : OpFun := fun v args =>
  match v, args with
  | .buf l, [PyObj.tuple lims] =>
    match lims.get? 0, lims.get? 1 with
    | some (.num lo), some (.num hi) => .ok (.buf (builtin_clip l (lo, hi)))
    | _, _ => .error .indexError
  | .buf _, _ => .error .typeError
  | _, _ => .error .typeError

/-- A concrete `eval` environment exposing the built-in clip operation,
as module scope does in `improcessor.basic`. -/
def envStd : String → Option OpFun :=
  fun s => if s = "builtin_clip" then some clipOp else Option.none

/-- A numpy dtype, as far as the mask precondition inspects it. -/
inductive DType where
  | bool
  | uint8
  | int64
  | float64
deriving DecidableEq

/-- A value reaching `mask.apply`: Python `None` or a numpy array with
a shape, a dtype and (flattened) contents. -/
inductive MVal where
  | pyNone
  | arr (shape : List Nat) (dtype : DType) (data : List ℚ)
deriving DecidableEq

/-- The semantics of invoking a stored mask method object (`mask.apply`
calls `self.methods[ii][0]` directly, without `eval`): the stored first
component, the current mask and the unpacked extra arguments determine
the outcome. -/
def MCall : Type := String → MVal → List PyObj → Except PyErr MVal

/-- One iteration of the loop body of `mask.apply`. -/
def maskStep (call : MCall) (cur : MVal) (m : String × PyObj) :
    Except PyErr MVal :=
  if pyTruthy m.2 then
    match unpackObj m.2 with
    | .error e => .error e
    | .ok as => call m.1 cur as
  else call m.1 cur []

/-- The indexed loop `for ii in range(numfuncs)` of `mask.apply`. -/
def maskApplyLoop (call : MCall) (ms : List (String × PyObj)) :
    Nat → Nat → MVal → Except PyErr MVal
  | _, 0, cur => .ok cur
  | i, k + 1, cur =>
    match ms.get? i with
    | Option.none => .error .indexError
    | some m =>
      match maskStep call cur m with
      | .error e => .error e
      | .ok c => maskApplyLoop call ms (i + 1) k c

/-- `mask.apply(mask)`: with an empty pipeline the result is `None`;
otherwise the sanity assertion `len(mask.shape) == 2 and mask.dtype == bool`
runs before anything else (on `None` the attribute access `mask.shape`
itself raises `AttributeError`), and only when it passes is the loop
run on `np.copy(mask)` (the identity on array values in a pure model). -/
def maskApply (call : MCall) (b : BasicState) (v : MVal) : Except PyErr MVal :=
  if b.numfuncs = 0 then .ok .pyNone
  else
    match v with
    | .pyNone => .error .attributeError
    | .arr sh dt d =>
      if sh.length = 2 ∧ dt = DType.bool then
        maskApplyLoop call b.methods 0 b.numfuncs (.arr sh dt d)
      else .error .assertionError

/-- A rank-3 numpy array (nested lists of rationals). -/
abbrev Img3 : Type := List (List (List ℚ))

/-- A rank-2 numpy array. -/
abbrev Img2 : Type := List (List ℚ)

/-- Whether a rank-2 nested list is rectangular with the given shape. -/
def shape2Is (y : Img2) (d e : Nat) : Bool :=
  y.length = d && y.all (fun r => r.length = e)

/-- Whether a rank-3 nested list is rectangular with the given shape. -/
def shape3Is (x : Img3) (a b c : Nat) : Bool :=
  x.length = a && x.all (fun pl => shape2Is pl b c)

/-- Element access in a rank-2 array (indices in range by construction
wherever this is used). -/
def get2 (y : Img2) (j k : Nat) : ℚ :=
  (y.getD j []).getD k 0

/-- Element access in a rank-3 array. -/
def get3 (x : Img3) (i j k : Nat) : ℚ :=
  ((x.getD i []).getD j []).getD k 0

/-- A numpy binary elementwise operation between a rank-3 array of shape
`(A, B, C)` and a rank-2 array of shape `(D, E)`.  Numpy left-pads the
rank-2 shape to `(1, D, E)` and broadcasts: the result exists iff
`B`/`D` and `C`/`E` are each equal or one of them is `1`, has shape
`(A, max B D, max C E)`, and each operand index is frozen to `0` along
its broadcast (size-one) axes.  `Option.none` models the `ValueError`
numpy raises on incompatible shapes (and ill-formed ragged input). -/
def bcOp3x2 (f : ℚ → ℚ → ℚ) (x : Img3) (y : Img2) : Option Img3 :=
  let a := x.length
  let b := (x.headD []).length
  let c := ((x.headD []).headD []).length
  let d := y.length
  let e := (y.headD []).length
  if shape3Is x a b c && shape2Is y d e
      && (b = d || b = 1 || d = 1) && (c = e || c = 1 || e = 1) then
    some ((List.range a).map (fun i =>
      (List.range (max b d)).map (fun j =>
        (List.range (max c e)).map (fun k =>
          f (get3 x i (if b = 1 then 0 else j) (if c = 1 then 0 else k))
            (get2 y (if d = 1 then 0 else j) (if e = 1 then 0 else k))))))
  else Option.none

/-- `np.min(img, axis=2)` on a rank-3 array: reduces the innermost axis.
`Option.none` models the numpy errors on ragged input or a zero-length
reduction axis. -/
def npMinAxis2 (x : Img3) : Option Img2 :=
  let a := x.length
  let b := (x.headD []).length
  let c := ((x.headD []).headD []).length
  if shape3Is x a b c && c ≠ 0 then
    some (x.map (fun pl => pl.map npMin))
  else Option.none

/-- `np.max(img, axis=2)` on a rank-3 array. -/
def npMaxAxis2 (x : Img3) : Option Img2 :=
  let a := x.length
  let b := (x.headD []).length
  let c := ((x.headD []).headD []).length
  if shape3Is x a b c && c ≠ 0 then
    some (x.map (fun pl => pl.map npMax))
  else Option.none

/-- Same-shape elementwise subtraction of two rank-2 arrays
(`maxI - minI`, whose operands have identical shape by construction). -/
def sub2 (u v : Img2) : Img2 :=
  List.zipWith (fun r s => List.zipWith (fun p q => p - q) r s) u v

/-- `builtin_normalize(img, empty)` on a rank-3 buffer, exactly as the
source computes it: per-position minima/maxima along axis 2, then
`(img - minI) / (maxI - minI)` with numpy broadcasting (the `empty`
parameter is unused by the source body).  A buffer of rank other than 3
makes `np.min(img, axis=2)` raise, so it lies outside this type; numpy's
division-by-zero produces `nan`, which no input below exercises. -/
def builtin_normalize (img : Img3) : Option Img3 := do
  let minI ← npMinAxis2 img
  let maxI ← npMaxAxis2 img
  let num ← bcOp3x2 (fun p q => p - q) img minI
  bcOp3x2 (fun p q => p / q) num (sub2 maxI minI)

/-- Global minimum of a rank-3 buffer (`min(img(:))` in the Matlab
ancestor; the value the specified rescaling is anchored to). -/
def npMinAll (x : Img3) : ℚ :=
  npMin (x.flatMap (fun pl => pl.flatMap id))

/-- Global maximum of a rank-3 buffer. -/
def npMaxAll (x : Img3) : ℚ :=
  npMax (x.flatMap (fun pl => pl.flatMap id))

/-- The tokens of a configuration list that reach the warning branch of
`_setProcess` (branch 6): exactly the non-string tokens in operation
position, in order.  Mirrors the two-at-a-time traversal of the loop. -/
def offenders : List PyObj → List PyObj
  | [] => []
  | [t] => if isStr t then [] else [t]
  | t :: _ :: rest => (if isStr t then [] else [t]) ++ offenders rest

/-- The state invariant of claim C10: the stored step count agrees with
the length of the stored methods list. -/
abbrev stateInv (b : BasicState) : Prop :=
  b.numfuncs = b.methods.length

/-- A clip-only pipeline, configured exactly as the usage examples do:
`basic('clip', ((2,100),))`. -/
def cfgClip : List PyObj :=
  [.str "clip", .tuple [.tuple [.num 2, .num 100]]]

/-- The state of the clip-only pipeline. -/
def pipeClip : BasicState := (basicInit cfgClip).1

/-- The rank-3 buffer exhibiting the normalize defect: every value is
`0`, `4` or `8`; its global minimum is `0` and global maximum `8`. -/
def normCounterexampleImg : Img3 :=
  [[[0, 4], [0, 4]], [[0, 8], [0, 8]]]

/-- Induction principle matching the two-at-a-time traversal of the
configuration loop. -/
def pairListInduction {α : Type} {P : List α → Prop} (h0 : P [])
    (h1 : ∀ t, P [t]) (h2 : ∀ t a rest, P rest → P (t :: a :: rest)) :
    ∀ l, P l
  | [] => h0
  | [t] => h1 t
  | t :: a :: rest => h2 t a rest (pairListInduction h0 h1 h2 rest)

/-- The indexed `apply` loop agrees with a left-to-right monadic fold
over the suffix of the methods list it traverses. -/
theorem applyLoop_eq_foldlM (env : String → Option OpFun) :
    ∀ (rest pre : List (String × PyObj)) (cur : ImVal),
      applyLoop env (pre ++ rest) pre.length rest.length cur =
        rest.foldlM (stepFn env) cur := by
  intro rest
  induction rest with
  | nil => intro pre cur; rfl
  | cons m rest ih =>
    intro pre cur
    have hget : (pre ++ m :: rest).get? pre.length = some m := by
      rw [List.get?_append_right (le_refl _)]
      simp
    show applyLoop env (pre ++ m :: rest) pre.length (rest.length + 1) cur = _
    rw [applyLoop, List.foldlM_cons]
    simp only [hget]
    cases hstep : stepFn env cur m with
    | error e => simp [Bind.bind, Except.bind]
    | ok c =>
      simp only [Bind.bind, Except.bind]
      have hre : pre ++ m :: rest = (pre ++ [m]) ++ rest := by simp
      have hlen : pre.length + 1 = (pre ++ [m]).length := by simp
      rw [hre, hlen]
      exact ih (pre ++ [m]) c

/-- Every element of a buffer is bounded below by `npMin` of it. -/
theorem npMin_le (x : List ℚ) (v : ℚ) (hv : v ∈ x) : npMin x ≤ v := by
  have hinit : ∀ (t : List ℚ) (a : ℚ), List.foldl min a t ≤ a := by
    intro t
    induction t with
    | nil => intro a; exact le_refl a
    | cons h t ih => intro a; exact le_trans (ih (min a h)) (min_le_left a h)
  have hmem : ∀ (t : List ℚ) (a w : ℚ), w ∈ t → List.foldl min a t ≤ w := by
    intro t
    induction t with
    | nil => intro a w hw; cases hw
    | cons h t ih =>
      intro a w hw
      rcases List.mem_cons.mp hw with rfl | hw
      · exact le_trans (hinit t (min a w)) (min_le_right a w)
      · exact ih (min a h) w hw
  cases x with
  | nil => cases hv
  | cons h t =>
    rcases List.mem_cons.mp hv with rfl | hv
    · exact hinit t v
    · exact hmem t h v hv

/-- Every element of a buffer is bounded above by `npMax` of it. -/
theorem le_npMax (x : List ℚ) (v : ℚ) (hv : v ∈ x) : v ≤ npMax x := by
  have hinit : ∀ (t : List ℚ) (a : ℚ), a ≤ List.foldl max a t := by
    intro t
    induction t with
    | nil => intro a; exact le_refl a
    | cons h t ih => intro a; exact le_trans (le_max_left a h) (ih (max a h))
  have hmem : ∀ (t : List ℚ) (a w : ℚ), w ∈ t → w ≤ List.foldl max a t := by
    intro t
    induction t with
    | nil => intro a w hw; cases hw
    | cons h t ih =>
      intro a w hw
      rcases List.mem_cons.mp hw with rfl | hw
      · exact le_trans (le_max_right a w) (hinit t (max a w))
      · exact ih (max a h) w hw
  cases x with
  | nil => cases hv
  | cons h t =>
    rcases List.mem_cons.mp hv with rfl | hv
    · exact hinit t v
    · exact hmem t h v hv

/-- C1.  For every resolution environment, every pipeline whose step
count matches its non-empty methods list, and every non-absent input,
`basic.apply` equals the strict left-to-right monadic composition of the
per-step operation `stepFn` over the methods in declaration order (the
value-copy `np.copy` is the identity on non-absent values in this pure
value model, so the fold starts from the input itself). -/
theorem apply_is_left_to_right_composition (env : String → Option OpFun)
    (b : BasicState) (image : ImVal)
    (h1 : b.numfuncs = b.methods.length) (h2 : b.methods ≠ [])
    (h3 : image ≠ ImVal.pyNone) :
    applyBasic env b image = b.methods.foldlM (stepFn env) image := by
  have hnz : ¬b.numfuncs = 0 := by
    rw [h1]
    simpa using h2
  have hcopy : npCopy image = image := by
    cases image with
    | pyNone => exact absurd rfl h3
    | noneArr => rfl
    | buf l => rfl
  unfold applyBasic
  rw [if_neg hnz, h1, hcopy]
  have h := applyLoop_eq_foldlM env b.methods [] image
  simpa using h

/-- Witness for C1: the clip-only pipeline on a concrete buffer. -/
theorem apply_is_left_to_right_composition_witness :
    pipeClip.numfuncs = pipeClip.methods.length ∧ pipeClip.methods ≠ [] ∧
      ImVal.buf [5, 150, 50] ≠ ImVal.pyNone ∧
      applyBasic envStd pipeClip (ImVal.buf [5, 150, 50]) =
        pipeClip.methods.foldlM (stepFn envStd) (ImVal.buf [5, 150, 50]) :=
  ⟨by decide, by decide, by decide,
    apply_is_left_to_right_composition envStd pipeClip (ImVal.buf [5, 150, 50])
      (by decide) (by decide) (by decide)⟩

/-- C2 (code bug).  On the absent input with a non-empty pipeline,
`basic.apply` does not return the absent sentinel: the first branch's
`imout = None` is dead (there is no early return), the loop runs on
`np.copy(None)` and the first step raises — here `np.clip` on the
`None`-wrapping array raises `TypeError`. -/
theorem apply_absent_input_with_steps_raises :
    applyBasic envStd pipeClip ImVal.pyNone = .error .typeError ∧
      0 < pipeClip.numfuncs := by
  constructor
  · decide
  · decide

/-- C3.  `set('processing', a)` on any prior state produces exactly the
state (and warnings and exception) of a freshly constructed pipeline on
the new list, with the ignore flag reset to false: all prior Steps are
discarded and the Step list is rebuilt from the new list alone. -/
theorem set_processing_resets_to_fresh_configuration :
    ∀ (b : BasicState) (a : List PyObj),
      set_processing b a = basicInit a ∧
        (set_processing b a).1.ignore_undef = false :=
  fun _ _ => ⟨rfl, rfl⟩

/-- C4 (code bug).  Configuring with the odd-length list `('clip',)`
does not complete: the pair-processing loop indexes `args[1]` past the
end of the list and raises `IndexError`. -/
theorem config_odd_list_raises_index_error :
    (basicInit [PyObj.str "clip"]).2.2 = some PyErr.indexError := by
  decide

/-- C5 counterexample.  The string token `no_such_fn` is not a
resolvable operation reference (it names nothing, so `eval` would raise
`NameError` at apply time), yet with the ignore flag false the
configuration binds the pair instead of omitting it and emits zero
warnings — refuting the claimed omit-plus-one-warning behaviour. -/
theorem unresolved_string_token_bound_without_warning :
    (basicInit [PyObj.str "no_such_fn", PyObj.tuple []]).1.methods =
        [("no_such_fn", PyObj.tuple [])] ∧
      (basicInit [PyObj.str "no_such_fn", PyObj.tuple []]).1.methods ≠ [] ∧
      (basicInit [PyObj.str "no_such_fn", PyObj.tuple []]).2.1 = [] := by
  refine ⟨by decide, by decide, by decide⟩

/-- C5 as amended.  For every configuration list: the Step list built is
the same whether the ignore flag is true or false, and so is the
exception outcome; with the flag true no warnings are emitted; with the
flag false exactly the non-string tokens in operation position produce
one warning each (and are the skipped pairs), while string tokens not
matching a recognized name are bound as Steps without any resolvability
check. -/
theorem config_warning_and_skip_characterization :
    ∀ args : List PyObj,
      (procPairs args true).1 = (procPairs args false).1 ∧
        (procPairs args true).2.1 = [] ∧
        (procPairs args false).2.1 = offenders args ∧
        (procPairs args true).2.2 = (procPairs args false).2.2 := by
  intro args
  induction args using pairListInduction with
  | h0 => exact ⟨rfl, rfl, rfl, rfl⟩
  | h1 t =>
    cases t with
    | str s =>
      refine ⟨rfl, ?_, ?_, rfl⟩ <;>
        · simp only [procPairs, offenders, isStr]
          by_cases h1c : s ∈ function_handle_list <;>
            by_cases h2c : s = "clip" ∨ s = "scale" ∨ s = "scaleabout" <;>
            by_cases h3c : s = "normalize" <;>
            simp_all [function_handle_list, cv2dir]
    | pyNone => exact ⟨rfl, rfl, rfl, rfl⟩
    | num q => exact ⟨rfl, rfl, rfl, rfl⟩
    | tuple l => exact ⟨rfl, rfl, rfl, rfl⟩
    | fnObj n => exact ⟨rfl, rfl, rfl, rfl⟩
  | h2 t a rest ih =>
    obtain ⟨ih1, ih2, ih3, ih4⟩ := ih
    cases t with
    | str s =>
      refine ⟨?_, ?_, ?_, ?_⟩ <;>
        · simp only [procPairs, offenders, isStr]
          by_cases h1c : s ∈ function_handle_list <;>
            by_cases h2c : s = "clip" ∨ s = "scale" ∨ s = "scaleabout" <;>
            by_cases h3c : s = "normalize" <;>
            by_cases h4c : s ∈ cv2dir <;>
            simp_all [function_handle_list, cv2dir]
    | pyNone => exact ⟨ih1, ih2, by simpa [procPairs, offenders, isStr] using ih3, ih4⟩
    | num q => exact ⟨ih1, ih2, by simpa [procPairs, offenders, isStr] using ih3, ih4⟩
    | tuple l => exact ⟨ih1, ih2, by simpa [procPairs, offenders, isStr] using ih3, ih4⟩
    | fnObj n => exact ⟨ih1, ih2, by simpa [procPairs, offenders, isStr] using ih3, ih4⟩

/-- C6 (code bug).  The default post-processing hook does not return its
input: its body is `raise NotImplementedError`, although its own comment
says the default is to do nothing. -/
theorem post_raises_not_implemented :
    post (ImVal.buf [1, 2, 3]) = .error .notImplementedError := rfl

/-- C7.  For every step semantics, every mask pipeline with at least one
Step, and every array input that is not a two-dimensional boolean array,
`mask.apply` fails with the assertion error of its sanity check, and the
result does not depend on the step semantics at all — no Step's
operation executes. -/
theorem mask_apply_precondition_violation_fatal (call : MCall)
    (b : BasicState) (sh : List Nat) (dt : DType) (d : List ℚ)
    (hn : 0 < b.numfuncs) (hpre : ¬(sh.length = 2 ∧ dt = DType.bool)) :
    maskApply call b (MVal.arr sh dt d) = .error .assertionError := by
  unfold maskApply
  rw [if_neg (Nat.pos_iff_ne_zero.mp hn)]
  exact if_neg hpre

/-- Witness for C7: the clip-only pipeline on a one-dimensional float
array. -/
theorem mask_apply_precondition_violation_fatal_witness :
    maskApply (fun _ _ _ => .ok MVal.pyNone) pipeClip
        (MVal.arr [3] DType.float64 [1, 2, 3]) = .error .assertionError :=
  mask_apply_precondition_violation_fatal _ pipeClip [3] DType.float64 [1, 2, 3]
    (by decide) (by decide)

/-- C8 (code bug).  On a buffer whose global minimum `0` and maximum `8`
differ, `builtin_normalize` does not rescale the buffer to `[0, 1]`:
because it takes minima/maxima along axis 2 and numpy broadcasting then
misaligns the indices, the entry holding the global maximum (position
`(1,0,1)`, value `8`) is mapped to `2`, not `1`. -/
theorem normalize_failing_input_evaluation :
    builtin_normalize normCounterexampleImg =
        some [[[0, 1], [0, (1 : ℚ)/2]], [[0, 2], [0, 1]]] ∧
      npMinAll normCounterexampleImg = 0 ∧
      npMaxAll normCounterexampleImg = 8 ∧
      get3 normCounterexampleImg 1 0 1 = 8 ∧
      get3 [[[0, 1], [0, (1 : ℚ)/2]], [[0, 2], [0, 1]]] 1 0 1 = 2 := by
  refine ⟨?_, ?_, ?_, ?_, ?_⟩ <;> with_unfolding_all rfl

/-- C9.  Clipping a non-empty buffer to its own minimum and maximum
leaves it unchanged. -/
theorem clip_roundtrip_identity (x : List ℚ) (h : x ≠ []) :
    builtin_clip x (npMin x, npMax x) = x := by
  cases x with
  | nil => exact absurd rfl h
  | cons h0 t =>
    unfold builtin_clip
    have hmap : ∀ v ∈ h0 :: t,
        min (max v ((npMin (h0 :: t), npMax (h0 :: t)).1))
          ((npMin (h0 :: t), npMax (h0 :: t)).2) = v := by
      intro v hv
      rw [max_eq_left (npMin_le (h0 :: t) v hv),
        min_eq_left (le_npMax (h0 :: t) v hv)]
    rw [List.map_congr_left hmap]
    simp

/-- Witness for C9: a concrete three-element buffer. -/
theorem clip_roundtrip_identity_witness :
    ([3, 1, 2] : List ℚ) ≠ [] ∧
      builtin_clip [3, 1, 2] (npMin [3, 1, 2], npMax [3, 1, 2]) = [3, 1, 2] :=
  ⟨by decide, clip_roundtrip_identity [3, 1, 2] (by decide)⟩

/-- C10.  The step count always equals the length of the methods list:
after construction, after `set('ignore', ...)` (given it held before)
and after `set('processing', ...)`; and neither `apply` nor `get`
changes any field of the state. -/
theorem numfuncs_matches_methods_invariant :
    (∀ a : List PyObj, stateInv (basicInit a).1) ∧
      (∀ (b : BasicState) (v : Bool), stateInv b → stateInv (set_ignore b v)) ∧
      (∀ (b : BasicState) (a : List PyObj), stateInv (set_processing b a).1) ∧
      (∀ (env : String → Option OpFun) (b : BasicState) (v : ImVal),
        (applyS env b v).1 = b) ∧
      (∀ (b : BasicState) (k : String), (getS b k).1 = b) := by
  refine ⟨?_, ?_, ?_, ?_, ?_⟩
  · intro a
    simp [stateInv, basicInit, setProcess]
  · intro b v h
    simpa [stateInv, set_ignore] using h
  · intro b a
    simp [stateInv, set_processing, setProcess]
  · intro env b v
    rfl
  · intro b k
    rfl

/-- Witness for C10: the invariant-preservation conjunct applied to the
concrete clip-only pipeline. -/
theorem numfuncs_matches_methods_invariant_witness :
    stateInv (set_ignore pipeClip true) :=
  numfuncs_matches_methods_invariant.2.1 pipeClip true (by decide)
